import Mathlib

/-
Verification development for the football Discord bot (src/main.py).

The definitions below are a shallow embedding of the match-state
reconciliation core of the bot:

  - Match                  mirrors the @dataclass Match (main.py lines 59-87);
    scores and minute are non-negative integers, status is the raw status
    string reported by the feed (SCHEDULED, TIMED, LIVE, IN_PLAY, PAUSED,
    FINISHED, ...).
  - ApiState               mirrors the mutable cache of FootballDataAPI
    (main.py lines 107-109): previous_scores, a dict from match id to the
    last (home, away) score pair, modelled as an in-place-update
    association list, and announced_ft, a set of ids modelled as a
    duplicate-free cons list.
  - detect_goals           mirrors FootballDataAPI.detect_goals
    (lines 224-244): returns the bool the Python method returns together
    with the updated state (the Python method mutates self).
  - should_announce_ft     mirrors FootballDataAPI.should_announce_ft
    (lines 246-251).
  - RawMatch / parseMatch / get_matches_by_competition mirror the parsing
    loop of FootballDataAPI.get_matches_by_competition (lines 144-198):
    parsing one feed entry fails exactly when the id, the home team name
    or the away team name is missing (Python raises KeyError there); the
    score, minute, status and date fields fall back to defaults.
  - HttpResponse / api_get mirror FootballDataAPI._get (lines 121-142):
    a non-200 status other than 429 and a raised exception both return the
    empty dict, modelled as no data; a 429 sleeps and retries, modelled by
    consuming the next attempt in the list (an empty attempt list stands
    for a retry loop that never returns during this tick, which likewise
    contributes no data to the tick).
  - processTick            mirrors one pass of the match_monitor task
    (lines 604-670): detect_goals runs over the matches of the batch whose
    status is IN_PLAY (get_live_matches fetches with status=IN_PLAY, so the
    live list contains exactly those), and should_announce_ft runs over the
    whole batch; the is_target_match filter is applied upstream of the
    engine, so a batch here is the list of matches the monitor processes.
    Each fired detection is recorded as an Event; the GOAL embed carries
    the match id and the new score pair, the FULL TIME embed the id and
    the final scores.
  - processTicks           iterates processTick over a sequence of polls.

Fingerprints follow the spec of the Event model: a GoalScored event is
fingerprinted by (matchId, homeScore, awayScore), a MatchEnded event by
its matchId alone.
-/

namespace Football

/-- One parsed match snapshot, as produced by the feed parser
(the Match dataclass of main.py). -/
structure Match where
  id : Int
  league : String
  home : String
  away : String
  home_score : Nat
  away_score : Nat
  minute : Nat
  status : String
  utc_date : String
deriving DecidableEq, Repr

def Match.score (m : Match) : Nat × Nat := (m.home_score, m.away_score)

/-- Lookup in an association list keyed by match id, the read side of a
Python dict. -/
def dictGet (d : List (Int × (Nat × Nat))) (k : Int) : Option (Nat × Nat) :=
  match d with
  | [] => none
  | (k1, v1) :: rest => if k1 = k then some v1 else dictGet rest k

/-- In-place update or append in an association list keyed by match id,
the write side of a Python dict assignment. -/
def dictInsert (d : List (Int × (Nat × Nat))) (k : Int) (v : Nat × Nat) :
    List (Int × (Nat × Nat)) :=
  match d with
  | [] => [(k, v)]
  | (k1, v1) :: rest =>
      if k1 = k then (k, v) :: rest else (k1, v1) :: dictInsert rest k v

/-- The mutable cache of FootballDataAPI: previous_scores maps a match id
to the last seen (home, away) pair, announced_ft is the set of ids whose
full time has been announced. -/
structure ApiState where
  previous_scores : List (Int × (Nat × Nat))
  announced_ft : List Int
deriving DecidableEq, Repr

/-- The state right after FootballDataAPI.__init__: empty dict, empty set. -/
def initState : ApiState := { previous_scores := [], announced_ft := [] }

/-- FootballDataAPI.detect_goals: reports True when the score pair differs
from the cached one; a first sighting only records the baseline. The
returned state is the state of the client after the call. -/
def detect_goals (s : ApiState) (m : Match) : Bool × ApiState :=
  let current_score := (m.home_score, m.away_score)
  match dictGet s.previous_scores m.id with
  | none =>
      (false,
       { s with previous_scores := dictInsert s.previous_scores m.id current_score })
  | some old_score =>
      if current_score ≠ old_score then
        (true,
         { s with previous_scores := dictInsert s.previous_scores m.id current_score })
      else
        (false, s)

/-- FootballDataAPI.should_announce_ft: fires once per id, the first time
the id is seen with status FINISHED. -/
def should_announce_ft (s : ApiState) (m : Match) : Bool × ApiState :=
  if m.status = "FINISHED" ∧ m.id ∉ s.announced_ft then
    (true, { s with announced_ft := m.id :: s.announced_ft })
  else
    (false, s)

/-- The two kinds of notifications the monitor sends. -/
inductive EventKind
  | goalScored
  | matchEnded
deriving DecidableEq, Repr

/-- One emitted notification: the GOAL or FULL TIME embed, reduced to the
data the spec fingerprints. -/
structure Event where
  kind : EventKind
  matchId : Int
  home_score : Nat
  away_score : Nat
deriving DecidableEq, Repr

def Event.score (e : Event) : Nat × Nat := (e.home_score, e.away_score)

/-- Deduplication key of an event, per the spec: a GoalScored event is
keyed by (matchId, homeScore, awayScore), a MatchEnded event by matchId. -/
inductive Fingerprint
  | goal (matchId : Int) (home away : Nat)
  | ended (matchId : Int)
deriving DecidableEq, Repr

def Event.fingerprint (e : Event) : Fingerprint :=
  match e.kind with
  | EventKind.goalScored => Fingerprint.goal e.matchId e.home_score e.away_score
  | EventKind.matchEnded => Fingerprint.ended e.matchId

def goalEvent (m : Match) : Event :=
  { kind := EventKind.goalScored, matchId := m.id,
    home_score := m.home_score, away_score := m.away_score }

def ftEvent (m : Match) : Event :=
  { kind := EventKind.matchEnded, matchId := m.id,
    home_score := m.home_score, away_score := m.away_score }

/-- The goal scan of match_monitor: detect_goals over the IN_PLAY matches
of the batch, in order, collecting a GOAL event for each fired detection. -/
def processGoals : ApiState → List Match → ApiState × List Event
  | s, [] => (s, [])
  | s, m :: rest =>
      if m.status = "IN_PLAY" then
        let d := detect_goals s m
        let r := processGoals d.2 rest
        (r.1, (if d.1 then [goalEvent m] else []) ++ r.2)
      else
        processGoals s rest

/-- The full-time scan of match_monitor: should_announce_ft over the whole
batch, collecting a FULL TIME event for each fired announcement. -/
def processFT : ApiState → List Match → ApiState × List Event
  | s, [] => (s, [])
  | s, m :: rest =>
      let d := should_announce_ft s m
      let r := processFT d.2 rest
      (r.1, (if d.1 then [ftEvent m] else []) ++ r.2)

/-- One pass of the match_monitor task over one batch of snapshots: the
goal scan followed by the full-time scan, with the emitted events in
emission order. -/
def processTick (s : ApiState) (batch : List Match) : ApiState × List Event :=
  let g := processGoals s batch
  let f := processFT g.1 batch
  (f.1, g.2 ++ f.2)

/-- A whole run of the monitor: one tick per batch, in poll order. -/
def processTicks : ApiState → List (List Match) → ApiState × List Event
  | s, [] => (s, [])
  | s, b :: bs =>
      let t := processTick s b
      let r := processTicks t.1 bs
      (r.1, t.2 ++ r.2)

/-- The GoalScored events of a trace that belong to one match id, in
emission order. -/
def goalsFor : List Event → Int → List Event
  | [], _ => []
  | e :: rest, i =>
      if e.kind = EventKind.goalScored ∧ e.matchId = i then e :: goalsFor rest i
      else goalsFor rest i

/-- The MatchEnded events of a trace that belong to one match id, in
emission order. -/
def ftFor : List Event → Int → List Event
  | [], _ => []
  | e :: rest, i =>
      if e.kind = EventKind.matchEnded ∧ e.matchId = i then e :: ftFor rest i
      else ftFor rest i

/-- One raw feed entry, reduced to the fields the parsing loop of
get_matches_by_competition reads; a missing field is none. -/
structure RawMatch where
  id : Option Int
  homeTeamName : Option String
  awayTeamName : Option String
  fullTimeHome : Option Nat
  fullTimeAway : Option Nat
  minute : Option Nat
  status : Option String
  utc_date : Option String
deriving DecidableEq, Repr

/-- The body of the per-entry try block of get_matches_by_competition:
the entry parses when id, homeTeam name and awayTeam name are all present
(their absence raises in Python); score, minute, status and date fall
back to 0, 0, SCHEDULED and the empty string. -/
def parseMatch (league : String) (r : RawMatch) : Option Match :=
  match r.id, r.homeTeamName, r.awayTeamName with
  | some i, some h, some a =>
      some { id := i, league := league, home := h, away := a,
             home_score := r.fullTimeHome.getD 0,
             away_score := r.fullTimeAway.getD 0,
             minute := r.minute.getD 0,
             status := r.status.getD ("SCHEDULED"),
             utc_date := r.utc_date.getD ("") }
  | _, _, _ => none

/-- FootballDataAPI.get_matches_by_competition after the fetch: no data or
a body without a matches key yields the empty list; otherwise each entry
is parsed and a failing entry is skipped while the loop continues. -/
def get_matches_by_competition (league : String)
    (data : Option (List RawMatch)) : List Match :=
  match data with
  | none => []
  | some raws => raws.filterMap (parseMatch league)

/-- One HTTP attempt inside FootballDataAPI._get: a 200 response with a
parsed body (none models a body without a matches key), a non-200 status,
or a raised request exception. -/
inductive HttpResponse
  | ok (body : Option (List RawMatch))
  | status (code : Nat)
  | exn
deriving DecidableEq, Repr

/-- FootballDataAPI._get over its successive attempts: a 429 sleeps and
retries with the next attempt; any other non-200 status and any raised
exception return the empty dict, that is no data; an exhausted attempt
list stands for a retry loop still sleeping at the end of the tick. -/
def api_get : List HttpResponse → Option (List RawMatch)
  | [] => none
  | a :: rest =>
      match a with
      | HttpResponse.ok body => body
      | HttpResponse.status code => if code = 429 then api_get rest else none
      | HttpResponse.exn => none

/-- The batch one monitor pass assembles from its fetches: one fetch per
competition, each contributing the parsed matches of its response data. -/
def fetchBatch (fetches : List (String × List HttpResponse)) : List Match :=
  (fetches.map (fun lr => get_matches_by_competition lr.1 (api_get lr.2))).flatten

/-- One monitor pass driven by raw feed responses. -/
def feedTick (s : ApiState) (fetches : List (String × List HttpResponse)) :
    ApiState × List Event :=
  processTick s (fetchBatch fetches)

/-- A run of the monitor driven by raw feed responses, one element per
tick. -/
def runFeed : ApiState → List (List (String × List HttpResponse)) → ApiState × List Event
  | s, [] => (s, [])
  | s, t :: ts =>
      let r1 := feedTick s t
      let r2 := runFeed r1.1 ts
      (r2.1, r1.2 ++ r2.2)

/-- Indicator of membership of an id in the announced set: 1 when the id
has been announced as finished, 0 otherwise. -/
def ftMark (s : ApiState) (i : Int) : Nat := if i ∈ s.announced_ft then 1 else 0

/-- Invariant tying a segment of emitted GoalScored events for one id to
the cached baseline across a segment of processing from state s to state
s1: the per-id goal events form a chain of changing score pairs, the
first one differs from the incoming baseline, the last one is the
outgoing baseline, and an empty segment preserves a tracked baseline. -/
def GoalChainInv (i : Int) (s s1 : ApiState) (g : List Event) : Prop :=
  List.Chain' (fun a b => Event.score a ≠ Event.score b) g ∧
  (∀ p, dictGet s.previous_scores i = some p →
    ∀ e ∈ g.head?, Event.score e ≠ p) ∧
  (∀ e ∈ g.getLast?, dictGet s1.previous_scores i = some (Event.score e)) ∧
  (g = [] → ∀ p, dictGet s.previous_scores i = some p →
    dictGet s1.previous_scores i = some p)

/-- A fixed concrete snapshot builder used by concrete counterexamples and
witnesses below. -/
def mkSnap (i : Int) (h a : Nat) (st : String) : Match :=
  { id := i, league := "laliga", home := "A", away := "B",
    home_score := h, away_score := a, minute := 10, status := st,
    utc_date := "" }

end Football

namespace Football

theorem dictGet_insert_self (d : List (Int × (Nat × Nat))) (k : Int) (v : Nat × Nat) :
    dictGet (dictInsert d k v) k = some v := by
  induction d with
  | nil => simp [dictInsert, dictGet]
  | cons p rest ih =>
      obtain ⟨k1, v1⟩ := p
      by_cases hk : k1 = k
      · simp [dictInsert, hk, dictGet]
      · simp [dictInsert, hk, dictGet, ih]

theorem dictGet_insert_ne (d : List (Int × (Nat × Nat))) (k i : Int) (v : Nat × Nat)
    (hne : k ≠ i) : dictGet (dictInsert d k v) i = dictGet d i := by
  induction d with
  | nil => simp [dictInsert, dictGet, hne]
  | cons p rest ih =>
      obtain ⟨k1, v1⟩ := p
      by_cases hk : k1 = k
      · subst hk
        simp [dictInsert, dictGet, hne, ih]
      · by_cases hi : k1 = i
        · subst hi
          simp [dictInsert, dictGet, hk]
        · simp [dictInsert, dictGet, hk, hi, ih]

theorem detect_goals_announced (s : ApiState) (m : Match) :
    (detect_goals s m).2.announced_ft = s.announced_ft := by
  unfold detect_goals
  cases hd : dictGet s.previous_scores m.id with
  | none => simp
  | some old => by_cases hne : (m.home_score, m.away_score) ≠ old <;> simp [hne]

theorem detect_goals_prev_other (s : ApiState) (m : Match) (i : Int)
    (hne : m.id ≠ i) :
    dictGet (detect_goals s m).2.previous_scores i = dictGet s.previous_scores i := by
  unfold detect_goals
  cases hd : dictGet s.previous_scores m.id with
  | none => simp [dictGet_insert_ne _ _ _ _ hne]
  | some old =>
      by_cases hc : (m.home_score, m.away_score) ≠ old <;>
        simp [hc, dictGet_insert_ne _ _ _ _ hne]

theorem detect_goals_baseline_aux (s : ApiState) (m : Match) :
    dictGet (detect_goals s m).2.previous_scores m.id
      = some (m.home_score, m.away_score) := by
  unfold detect_goals
  cases hd : dictGet s.previous_scores m.id with
  | none => simp [dictGet_insert_self]
  | some old =>
      by_cases hc : (m.home_score, m.away_score) ≠ old
      · simp [hc, dictGet_insert_self]
      · push_neg at hc
        simp [hc, hd]

/-- C9: after every call to detect_goals, the cached baseline for the id of
the passed match equals exactly the score pair of that match, whether or
not the call reported a goal. -/
theorem detect_goals_baseline_refresh (s : ApiState) (m : Match) :
    dictGet (detect_goals s m).2.previous_scores m.id
      = some (m.home_score, m.away_score) := by
  unfold detect_goals
  cases hd : dictGet s.previous_scores m.id with
  | none => simp [dictGet_insert_self]
  | some old =>
      by_cases hc : (m.home_score, m.away_score) ≠ old
      · simp [hc, dictGet_insert_self]
      · push_neg at hc
        simp [hc, hd]

/-- C8: a feed entry that fails parsing is skipped and the parsing loop
continues: the parsed batch around one malformed entry is exactly the
parsed prefix followed by the parsed suffix, so one malformed entry never
aborts the batch. -/
theorem malformed_snapshot_isolation (league : String) (pre post : List RawMatch)
    (bad : RawMatch) (hbad : parseMatch league bad = none) :
    get_matches_by_competition league (some (pre ++ bad :: post))
      = get_matches_by_competition league (some pre)
          ++ get_matches_by_competition league (some post) := by
  simp [get_matches_by_competition, List.filterMap_append, List.filterMap_cons, hbad]

theorem malformed_snapshot_isolation_witness :
    parseMatch ("laliga")
        { id := none, homeTeamName := some "A", awayTeamName := some "B",
          fullTimeHome := some 1, fullTimeAway := some 0, minute := some 5,
          status := some "IN_PLAY", utc_date := some "" } = none ∧
    get_matches_by_competition ("laliga")
        (some ([{ id := some 4, homeTeamName := some "C", awayTeamName := some "D",
                  fullTimeHome := some 2, fullTimeAway := some 2, minute := some 80,
                  status := some "IN_PLAY", utc_date := some "" }]
               ++ { id := none, homeTeamName := some "A", awayTeamName := some "B",
                    fullTimeHome := some 1, fullTimeAway := some 0, minute := some 5,
                    status := some "IN_PLAY", utc_date := some "" }
                  :: [{ id := some 6, homeTeamName := some "E", awayTeamName := some "F",
                        fullTimeHome := some 0, fullTimeAway := some 0, minute := some 1,
                        status := some "IN_PLAY", utc_date := some "" }]))
      = get_matches_by_competition ("laliga")
          (some [{ id := some 4, homeTeamName := some "C", awayTeamName := some "D",
                   fullTimeHome := some 2, fullTimeAway := some 2, minute := some 80,
                   status := some "IN_PLAY", utc_date := some "" }])
        ++ get_matches_by_competition ("laliga")
             (some [{ id := some 6, homeTeamName := some "E", awayTeamName := some "F",
                      fullTimeHome := some 0, fullTimeAway := some 0, minute := some 1,
                      status := some "IN_PLAY", utc_date := some "" }]) :=
  ⟨by decide, malformed_snapshot_isolation ("laliga") _ _ _ (by decide)⟩

theorem should_announce_ft_prev (s : ApiState) (m : Match) :
    (should_announce_ft s m).2.previous_scores = s.previous_scores := by
  unfold should_announce_ft
  by_cases h : m.status = "FINISHED" ∧ m.id ∉ s.announced_ft <;> simp [h]

theorem should_announce_ft_mono (s : ApiState) (m : Match) (i : Int)
    (h : i ∈ s.announced_ft) : i ∈ (should_announce_ft s m).2.announced_ft := by
  unfold should_announce_ft
  by_cases hc : m.status = "FINISHED" ∧ m.id ∉ s.announced_ft <;> simp [hc, h]

theorem should_announce_ft_other (s : ApiState) (m : Match) (i : Int)
    (hne : m.id ≠ i) :
    (i ∈ (should_announce_ft s m).2.announced_ft ↔ i ∈ s.announced_ft) := by
  unfold should_announce_ft
  by_cases hc : m.status = "FINISHED" ∧ m.id ∉ s.announced_ft
  · simp [hc, List.mem_cons]
    intro he
    exact absurd he.symm hne
  · simp [hc]

theorem processGoals_announced (s : ApiState) (B : List Match) :
    (processGoals s B).1.announced_ft = s.announced_ft := by
  induction B generalizing s with
  | nil => simp [processGoals]
  | cons m rest ih =>
      by_cases h : m.status = "IN_PLAY" <;>
        simp [processGoals, h, ih, detect_goals_announced]

theorem processGoals_prev_other (s : ApiState) (B : List Match) (i : Int)
    (habs : ∀ m ∈ B, m.id ≠ i) :
    dictGet (processGoals s B).1.previous_scores i = dictGet s.previous_scores i := by
  induction B generalizing s with
  | nil => simp [processGoals]
  | cons m rest ih =>
      have hm : m.id ≠ i := habs m (by simp)
      have hrest : ∀ m1 ∈ rest, m1.id ≠ i := fun m1 hm1 => habs m1 (by simp [hm1])
      by_cases h : m.status = "IN_PLAY"
      · simp only [processGoals, h, if_pos]
        rw [ih _ hrest, detect_goals_prev_other _ _ _ hm]
      · simp only [processGoals, h, if_neg, not_false_iff]
        exact ih s hrest

theorem processFT_prev (s : ApiState) (B : List Match) :
    (processFT s B).1.previous_scores = s.previous_scores := by
  induction B generalizing s with
  | nil => simp [processFT]
  | cons m rest ih =>
      simp [processFT, ih, should_announce_ft_prev]

theorem processFT_announced_mono (s : ApiState) (B : List Match) (i : Int)
    (h : i ∈ s.announced_ft) : i ∈ (processFT s B).1.announced_ft := by
  induction B generalizing s with
  | nil => simpa [processFT] using h
  | cons m rest ih =>
      simp only [processFT]
      exact ih _ (should_announce_ft_mono s m i h)

theorem processFT_announced_other (s : ApiState) (B : List Match) (i : Int)
    (habs : ∀ m ∈ B, m.id ≠ i) :
    (i ∈ (processFT s B).1.announced_ft ↔ i ∈ s.announced_ft) := by
  induction B generalizing s with
  | nil => simp [processFT]
  | cons m rest ih =>
      have hm : m.id ≠ i := habs m (by simp)
      have hrest : ∀ m1 ∈ rest, m1.id ≠ i := fun m1 hm1 => habs m1 (by simp [hm1])
      simp only [processFT]
      rw [ih _ hrest, should_announce_ft_other s m i hm]

theorem processFT_member (s : ApiState) (B : List Match) :
    ∀ m ∈ B, m.status = "FINISHED" → m.id ∈ (processFT s B).1.announced_ft := by
  induction B generalizing s with
  | nil => simp
  | cons m rest ih =>
      intro m1 hm1 hfin
      simp only [processFT]
      rcases List.mem_cons.mp hm1 with he | ht
      · subst he
        apply processFT_announced_mono
        unfold should_announce_ft
        by_cases hc : m1.status = "FINISHED" ∧ m1.id ∉ s.announced_ft
        · simp [hc]
        · push_neg at hc
          have hn : ¬ (m1.status = "FINISHED" ∧ m1.id ∉ s.announced_ft) :=
            fun h => h.2 (hc h.1)
          rw [if_neg hn]
          exact hc hfin
      · exact ih _ m1 ht hfin

/-- C7: on feed failure nothing changes — if every fetch of every tick
yields no data (a non-200 status, a raised request exception, a body
without a matches key, or a rate-limit loop still pending), the whole run
leaves the client state exactly as it was and emits no events, for any
number of consecutive failed ticks. -/
theorem outage_safety (s : ApiState)
    (ticks : List (List (String × List HttpResponse)))
    (hfail : ∀ t ∈ ticks, ∀ f ∈ t, api_get f.2 = none) :
    runFeed s ticks = (s, []) := by
  revert hfail
  induction ticks generalizing s with
  | nil =>
      intro hfail
      rfl
  | cons t ts ih =>
      intro hfail
      have hbatch : fetchBatch t = [] := by
        unfold fetchBatch
        rw [List.flatten_eq_nil_iff]
        intro l hl
        rcases List.mem_map.mp hl with ⟨f, hf, rfl⟩
        rw [hfail t (by simp) f hf]
        rfl
      have htick : feedTick s t = (s, []) := by
        unfold feedTick
        rw [hbatch]
        rfl
      have hrest : runFeed s ts = (s, []) :=
        ih s (fun t1 ht1 f hf => hfail t1 (by simp [ht1]) f hf)
      simp [runFeed, htick, hrest]

theorem outage_safety_witness :
    runFeed { previous_scores := [(1, (2, 1))], announced_ft := [5] }
        (List.replicate 5
          [("laliga", [HttpResponse.status 500]),
           ("epl", [HttpResponse.status 429, HttpResponse.exn]),
           ("ucl", [HttpResponse.exn])])
      = ({ previous_scores := [(1, (2, 1))], announced_ft := [5] }, []) :=
  outage_safety _ _ (by decide)

theorem ftFor_append (l1 l2 : List Event) (i : Int) :
    ftFor (l1 ++ l2) i = ftFor l1 i ++ ftFor l2 i := by
  induction l1 with
  | nil => simp [ftFor]
  | cons e rest ih =>
      by_cases h : e.kind = EventKind.matchEnded ∧ e.matchId = i <;>
        simp [ftFor, h, ih]

theorem goalsFor_append (l1 l2 : List Event) (i : Int) :
    goalsFor (l1 ++ l2) i = goalsFor l1 i ++ goalsFor l2 i := by
  induction l1 with
  | nil => simp [goalsFor]
  | cons e rest ih =>
      by_cases h : e.kind = EventKind.goalScored ∧ e.matchId = i <;>
        simp [goalsFor, h, ih]

theorem ftFor_processGoals (s : ApiState) (B : List Match) (i : Int) :
    ftFor (processGoals s B).2 i = [] := by
  induction B generalizing s with
  | nil => simp [processGoals, ftFor]
  | cons m rest ih =>
      by_cases h : m.status = "IN_PLAY"
      · by_cases hf : (detect_goals s m).1 <;>
          simp [processGoals, h, hf, ftFor_append, ftFor, goalEvent, ih]
      · simp [processGoals, h, ih]

theorem goalsFor_processFT (s : ApiState) (B : List Match) (i : Int) :
    goalsFor (processFT s B).2 i = [] := by
  induction B generalizing s with
  | nil => simp [processFT, goalsFor]
  | cons m rest ih =>
      by_cases hf : (should_announce_ft s m).1 <;>
        simp [processFT, hf, goalsFor_append, goalsFor, ftEvent, ih]

/-- C3 amended: the store never evicts — for a match id absent from every
batch of a run, the cached score and the announced-full-time status are
exactly what they were before the run, however many consecutive batches
the id is absent from. -/
theorem no_eviction_amended (s : ApiState) (bs : List (List Match)) (i : Int)
    (habs : ∀ B ∈ bs, ∀ m ∈ B, m.id ≠ i) :
    dictGet (processTicks s bs).1.previous_scores i = dictGet s.previous_scores i ∧
    ((i ∈ (processTicks s bs).1.announced_ft) ↔ i ∈ s.announced_ft) := by
  revert habs
  induction bs generalizing s with
  | nil =>
      intro _
      simp [processTicks]
  | cons B rest ih =>
      intro habs
      have hB : ∀ m ∈ B, m.id ≠ i := habs B (by simp)
      have hrest : ∀ B1 ∈ rest, ∀ m ∈ B1, m.id ≠ i :=
        fun B1 h1 => habs B1 (by simp [h1])
      have htick_prev : dictGet (processTick s B).1.previous_scores i
          = dictGet s.previous_scores i := by
        unfold processTick
        simp only
        rw [processFT_prev]
        exact processGoals_prev_other s B i hB
      have htick_ann : (i ∈ (processTick s B).1.announced_ft ↔ i ∈ s.announced_ft) := by
        unfold processTick
        simp only
        rw [processFT_announced_other _ B i hB, processGoals_announced]
      obtain ⟨ih1, ih2⟩ := ih (processTick s B).1 hrest
      constructor
      · simp only [processTicks]
        rw [ih1, htick_prev]
      · simp only [processTicks]
        rw [ih2, htick_ann]

theorem no_eviction_amended_witness :
    dictGet (processTicks ⟨[(3, (1, 1))], [3]⟩
        [[mkSnap 4 2 0 ("IN_PLAY")], [], [mkSnap 5 0 0 ("FINISHED")]]).1.previous_scores 3
      = dictGet (⟨[(3, (1, 1))], [3]⟩ : ApiState).previous_scores 3 ∧
    ((3 : Int) ∈ (processTicks ⟨[(3, (1, 1))], [3]⟩
        [[mkSnap 4 2 0 ("IN_PLAY")], [], [mkSnap 5 0 0 ("FINISHED")]]).1.announced_ft
      ↔ (3 : Int) ∈ (⟨[(3, (1, 1))], [3]⟩ : ApiState).announced_ft) :=
  no_eviction_amended ⟨[(3, (1, 1))], [3]⟩
    [[mkSnap 4 2 0 ("IN_PLAY")], [], [mkSnap 5 0 0 ("FINISHED")]] 3 (by decide)

/-- C4 counterexample: the first snapshot ever seen for an untracked
match id is not always event-free — when that first snapshot already has
status FINISHED, should_announce_ft fires on it (it checks only the
announced set, never whether the match was tracked), so the very first
sighting emits a MatchEnded event. -/
theorem baseline_ft_counterexample :
    (processTick initState [mkSnap 11 2 1 ("FINISHED")]).2
      = [ftEvent (mkSnap 11 2 1 ("FINISHED"))] ∧
    (processTick initState [mkSnap 11 2 1 ("FINISHED")]).2 ≠ [] := by
  decide

/-- C4 amended: the first snapshot of an untracked match with a Live
(IN_PLAY) status produces no event, even with a nonzero score — it only
records the baseline — and a subsequent live snapshot of the same match
with a higher score produces exactly one GoalScored event carrying the
new score pair; a first sighting whose status is already FINISHED,
however, does emit a MatchEnded event. -/
theorem no_baseline_flood (s : ApiState) (m m1 : Match)
    (hnew : dictGet s.previous_scores m.id = none)
    (hst : m.status = "IN_PLAY")
    (hid : m1.id = m.id)
    (hst1 : m1.status = "IN_PLAY")
    (hhi : m.home_score ≤ m1.home_score)
    (hai : m.away_score ≤ m1.away_score)
    (hne : (m.home_score, m.away_score) ≠ (m1.home_score, m1.away_score)) :
    (processTick s [m]).2 = [] ∧
    (processTick (processTick s [m]).1 [m1]).2 = [goalEvent m1] := by
  have hsa : ∀ s1 : ApiState, ∀ mm : Match, mm.status = "IN_PLAY" →
      should_announce_ft s1 mm = (false, s1) := by
    intro s1 mm h
    unfold should_announce_ft
    have hn : ¬ (mm.status = "FINISHED" ∧ mm.id ∉ s1.announced_ft) := by
      intro hc
      rw [h] at hc
      exact absurd hc.1 (by decide)
    rw [if_neg hn]
  have h1 : processTick s [m]
      = ({ s with previous_scores :=
            dictInsert s.previous_scores m.id (m.home_score, m.away_score) }, []) := by
    unfold processTick
    simp [processGoals, hst, detect_goals, hnew, processFT, hsa _ m hst]
  have hlook : dictGet (dictInsert s.previous_scores m.id
        (m.home_score, m.away_score)) m1.id = some (m.home_score, m.away_score) := by
    rw [hid]
    exact dictGet_insert_self _ _ _
  have h2 : (processTick
        ({ s with previous_scores :=
              dictInsert s.previous_scores m.id (m.home_score, m.away_score) } : ApiState)
        [m1]).2 = [goalEvent m1] := by
    unfold processTick
    simp [processGoals, hst1, detect_goals, hlook, processFT, hsa _ m1 hst1, Ne.symm hne]
  rw [h1]
  exact ⟨rfl, h2⟩

theorem no_baseline_flood_witness :
    (processTick initState [mkSnap 7 2 1 ("IN_PLAY")]).2 = [] ∧
    (processTick (processTick initState [mkSnap 7 2 1 ("IN_PLAY")]).1
        [mkSnap 7 3 1 ("IN_PLAY")]).2 = [goalEvent (mkSnap 7 3 1 ("IN_PLAY"))] :=
  no_baseline_flood initState (mkSnap 7 2 1 ("IN_PLAY")) (mkSnap 7 3 1 ("IN_PLAY"))
    (by decide) (by decide) (by decide) (by decide) (by decide) (by decide) (by decide)

/-- C6: when a match not yet announced goes Live, then Ended, then Ended
again (the Ended snapshot fed twice), exactly one MatchEnded event is
emitted for its id across the three polls, and the id is recorded in the
announced set. -/
theorem fulltime_once (s : ApiState) (mLive mEnd : Match)
    (hid : mLive.id = mEnd.id)
    (hLive : mLive.status = "IN_PLAY")
    (hEnd : mEnd.status = "FINISHED")
    (hnew : mEnd.id ∉ s.announced_ft) :
    (ftFor (processTicks s [[mLive], [mEnd], [mEnd]]).2 mEnd.id).length = 1 ∧
    mEnd.id ∈ (processTicks s [[mLive], [mEnd], [mEnd]]).1.announced_ft := by
  have hsaL : ∀ s1 : ApiState, should_announce_ft s1 mLive = (false, s1) := by
    intro s1
    unfold should_announce_ft
    have hn : ¬ (mLive.status = "FINISHED" ∧ mLive.id ∉ s1.announced_ft) := by
      intro hc
      rw [hLive] at hc
      exact absurd hc.1 (by decide)
    rw [if_neg hn]
  have hgFin : ∀ s1 : ApiState, processGoals s1 [mEnd] = (s1, []) := by
    intro s1
    have hn : ¬ mEnd.status = "IN_PLAY" := by
      rw [hEnd]
      decide
    simp [processGoals, hn]
  have ht1 : processTick s [mLive]
      = ((processGoals s [mLive]).1, (processGoals s [mLive]).2) := by
    unfold processTick
    simp [processFT, hsaL]
  have ht2 : ∀ s1 : ApiState, mEnd.id ∉ s1.announced_ft →
      processTick s1 [mEnd]
        = ({ s1 with announced_ft := mEnd.id :: s1.announced_ft }, [ftEvent mEnd]) := by
    intro s1 hn
    unfold processTick
    simp [hgFin, processFT, should_announce_ft, hEnd, hn]
  have ht3 : ∀ s1 : ApiState, mEnd.id ∈ s1.announced_ft →
      processTick s1 [mEnd] = (s1, []) := by
    intro s1 hmem
    have hn : ¬ (mEnd.status = "FINISHED" ∧ mEnd.id ∉ s1.announced_ft) :=
      fun h => h.2 hmem
    unfold processTick
    simp [hgFin, processFT, should_announce_ft, hn]
  have hannA : (processGoals s [mLive]).1.announced_ft = s.announced_ft :=
    processGoals_announced s [mLive]
  have hnotA : mEnd.id ∉ (processGoals s [mLive]).1.announced_ft := by
    rw [hannA]
    exact hnew
  have hrun : processTicks s [[mLive], [mEnd], [mEnd]]
      = ({ (processGoals s [mLive]).1 with
            announced_ft := mEnd.id :: (processGoals s [mLive]).1.announced_ft },
         (processGoals s [mLive]).2 ++ ([ftEvent mEnd] ++ ([] ++ []))) := by
    simp only [processTicks]
    rw [ht1, ht2 _ hnotA, ht3 _ (by simp)]
  rw [hrun]
  constructor
  · rw [ftFor_append, ftFor_processGoals]
    simp [ftFor, ftEvent]
  · simp

theorem fulltime_once_witness :
    (ftFor (processTicks initState
        [[mkSnap 9 1 0 ("IN_PLAY")], [mkSnap 9 1 0 ("FINISHED")],
         [mkSnap 9 1 0 ("FINISHED")]]).2 9).length = 1 ∧
    (9 : Int) ∈ (processTicks initState
        [[mkSnap 9 1 0 ("IN_PLAY")], [mkSnap 9 1 0 ("FINISHED")],
         [mkSnap 9 1 0 ("FINISHED")]]).1.announced_ft :=
  fulltime_once initState (mkSnap 9 1 0 ("IN_PLAY")) (mkSnap 9 1 0 ("FINISHED"))
    (by decide) (by decide) (by decide) (by decide)

theorem processGoals_baseline (s : ApiState) (B : List Match)
    (hnd : (B.map Match.id).Nodup) :
    ∀ m ∈ B, m.status = "IN_PLAY" →
      dictGet (processGoals s B).1.previous_scores m.id
        = some (m.home_score, m.away_score) := by
  induction B generalizing s with
  | nil => simp
  | cons m0 rest ih =>
      intro m hm hst
      have hnd0 : m0.id ∉ rest.map Match.id := (List.nodup_cons.mp hnd).1
      have hndr : (rest.map Match.id).Nodup := (List.nodup_cons.mp hnd).2
      rcases List.mem_cons.mp hm with he | ht
      · subst he
        simp only [processGoals, hst, if_pos]
        have habs : ∀ m1 ∈ rest, m1.id ≠ m.id := by
          intro m1 h1 he1
          exact hnd0 (by rw [← he1]; exact List.mem_map_of_mem Match.id h1)
        rw [processGoals_prev_other _ rest m.id habs]
        exact detect_goals_baseline_aux s m
      · by_cases h0 : m0.status = "IN_PLAY"
        · simp only [processGoals, h0, if_pos]
          exact ih _ hndr m ht hst
        · simp only [processGoals, h0, if_neg, not_false_iff]
          exact ih _ hndr m ht hst

theorem processGoals_noop (s : ApiState) (B : List Match)
    (hbase : ∀ m ∈ B, m.status = "IN_PLAY" →
      dictGet s.previous_scores m.id = some (m.home_score, m.away_score)) :
    processGoals s B = (s, []) := by
  induction B generalizing s with
  | nil => rfl
  | cons m rest ih =>
      by_cases h : m.status = "IN_PLAY"
      · have hdg : detect_goals s m = (false, s) := by
          unfold detect_goals
          rw [hbase m (by simp) h]
          simp
        simp only [processGoals, h, if_pos, hdg]
        simp [ih _ (fun m1 h1 hs1 => hbase m1 (by simp [h1]) hs1)]
      · simp only [processGoals, h, if_neg, not_false_iff]
        exact ih _ (fun m1 h1 hs1 => hbase m1 (by simp [h1]) hs1)

theorem processFT_noop (s : ApiState) (B : List Match)
    (hann : ∀ m ∈ B, m.status = "FINISHED" → m.id ∈ s.announced_ft) :
    processFT s B = (s, []) := by
  induction B generalizing s with
  | nil => rfl
  | cons m rest ih =>
      have hn : ¬ (m.status = "FINISHED" ∧ m.id ∉ s.announced_ft) :=
        fun hc => hc.2 (hann m (by simp) hc.1)
      have hsa : should_announce_ft s m = (false, s) := by
        unfold should_announce_ft
        rw [if_neg hn]
      simp [processFT, hsa, ih _ (fun m1 h1 hs1 => hann m1 (by simp [h1]) hs1)]

theorem should_announce_ft_inplay (s : ApiState) (m : Match)
    (h : m.status = "IN_PLAY") : should_announce_ft s m = (false, s) := by
  unfold should_announce_ft
  have hn : ¬ (m.status = "FINISHED" ∧ m.id ∉ s.announced_ft) := by
    intro hc
    rw [h] at hc
    exact absurd hc.1 (by decide)
  rw [if_neg hn]

/-- C2 amended: a poll whose score differs from the stored baseline in
either direction emits a GoalScored event; in particular a score strictly
lower in some field does emit the event carrying the lower score, which
also becomes the new stored baseline, so the sequence 1-0, 0-0, 1-0
produces two GoalScored events, one at each change. -/
theorem regression_emits_amended (s : ApiState) (m : Match) (p : Nat × Nat)
    (hp : dictGet s.previous_scores m.id = some p)
    (hst : m.status = "IN_PLAY")
    (hlow : m.home_score < p.1 ∨ m.away_score < p.2) :
    (processTick s [m]).2 = [goalEvent m] ∧
    dictGet (processTick s [m]).1.previous_scores m.id
      = some (m.home_score, m.away_score) := by
  have hne : (m.home_score, m.away_score) ≠ p := by
    intro he
    rcases hlow with h | h
    · rw [← he] at h
      exact absurd h (lt_irrefl _)
    · rw [← he] at h
      exact absurd h (lt_irrefl _)
  constructor
  · unfold processTick
    simp [processGoals, hst, detect_goals, hp, hne, processFT, should_announce_ft_inplay]
  · unfold processTick
    simp only
    rw [processFT_prev]
    have hg : (processGoals s [m]).1 = (detect_goals s m).2 := by
      simp [processGoals, hst]
    rw [hg]
    exact detect_goals_baseline_aux s m

theorem regression_emits_amended_witness :
    (processTick ⟨[(1, (1, 0))], []⟩ [mkSnap 1 0 0 ("IN_PLAY")]).2
      = [goalEvent (mkSnap 1 0 0 ("IN_PLAY"))] ∧
    dictGet (processTick ⟨[(1, (1, 0))], []⟩
        [mkSnap 1 0 0 ("IN_PLAY")]).1.previous_scores 1 = some (0, 0) :=
  regression_emits_amended ⟨[(1, (1, 0))], []⟩ (mkSnap 1 0 0 ("IN_PLAY")) (1, 0)
    (by decide) (by decide) (by decide)

/-- C5 amended: for a batch whose match ids are pairwise distinct, feeding
the identical batch twice in a row leaves the state unchanged and emits
zero events on the second feed. -/
theorem idempotence_amended (s : ApiState) (B : List Match)
    (hnd : (B.map Match.id).Nodup) :
    processTick (processTick s B).1 B = ((processTick s B).1, []) := by
  set S := (processTick s B).1 with hS
  have hprev : S.previous_scores = (processGoals s B).1.previous_scores := by
    rw [hS]
    simp only [processTick]
    exact processFT_prev _ _
  have hg2 : processGoals S B = (S, []) := by
    apply processGoals_noop
    intro m hm hst
    rw [hprev]
    exact processGoals_baseline s B hnd m hm hst
  have hf2 : processFT S B = (S, []) := by
    apply processFT_noop
    intro m hm hfin
    rw [hS]
    simp only [processTick]
    exact processFT_member _ B m hm hfin
  simp only [processTick]
  rw [hg2]
  simp only
  rw [hf2]
  rfl

theorem idempotence_amended_witness :
    processTick (processTick initState
        [mkSnap 1 1 0 ("IN_PLAY"), mkSnap 2 0 0 ("FINISHED")]).1
      [mkSnap 1 1 0 ("IN_PLAY"), mkSnap 2 0 0 ("FINISHED")]
      = ((processTick initState
          [mkSnap 1 1 0 ("IN_PLAY"), mkSnap 2 0 0 ("FINISHED")]).1, []) :=
  idempotence_amended initState
    [mkSnap 1 1 0 ("IN_PLAY"), mkSnap 2 0 0 ("FINISHED")] (by decide)

/-- C1 counterexample: with the score of one live match going 1-0, 0-0,
1-0, 0-0 across four polls, the engine emits three GoalScored events for
that match of which the first and the third carry the same fingerprint,
so the emitted events of one match do not have pairwise distinct
fingerprints. -/
theorem fingerprint_duplicate_counterexample :
    ¬ List.Pairwise (fun a b => a.fingerprint ≠ b.fingerprint)
        (processTicks initState
          [[mkSnap 1 1 0 ("IN_PLAY")], [mkSnap 1 0 0 ("IN_PLAY")],
           [mkSnap 1 1 0 ("IN_PLAY")], [mkSnap 1 0 0 ("IN_PLAY")]]).2 := by
  decide

/-- C2 counterexample: a poll whose score is strictly lower than the
cached baseline does emit a GoalScored event, and the score sequence 1-0,
0-0, 1-0 for one match yields two GoalScored events, not one. -/
theorem regression_guard_counterexample :
    (processTick (processTicks initState [[mkSnap 1 1 0 ("IN_PLAY")]]).1
        [mkSnap 1 0 0 ("IN_PLAY")]).2 ≠ [] ∧
    (goalsFor (processTicks initState
        [[mkSnap 1 1 0 ("IN_PLAY")], [mkSnap 1 0 0 ("IN_PLAY")],
         [mkSnap 1 1 0 ("IN_PLAY")]]).2 1).length = 2 := by
  decide

/-- C3 counterexample: after a match is absent from three consecutive
successful batches its record is still in the store, and when the id
reappears with a higher score the engine emits a GoalScored event instead
of treating the match as brand new. -/
theorem eviction_counterexample :
    dictGet (processTicks initState
        [[mkSnap 1 1 0 ("IN_PLAY")], [], [], []]).1.previous_scores 1
      = some (1, 0) ∧
    (processTicks initState
        [[mkSnap 1 1 0 ("IN_PLAY")], [], [], [], [mkSnap 1 2 0 ("IN_PLAY")]]).2
      = [goalEvent (mkSnap 1 2 0 ("IN_PLAY"))] := by
  decide

theorem ftMark_le_one (s : ApiState) (i : Int) : ftMark s i ≤ 1 := by
  unfold ftMark
  split <;> simp

theorem processFT_ft_bound (s : ApiState) (B : List Match) (i : Int) :
    (ftFor (processFT s B).2 i).length + ftMark s i
      ≤ ftMark (processFT s B).1 i := by
  induction B generalizing s with
  | nil => simp [processFT, ftFor]
  | cons m rest ih =>
      by_cases hc : m.status = "FINISHED" ∧ m.id ∉ s.announced_ft
      · have hsa : should_announce_ft s m
            = (true, { s with announced_ft := m.id :: s.announced_ft }) := by
          unfold should_announce_ft
          rw [if_pos hc]
        by_cases hi : m.id = i
        · subst hi
          have hm0 : ftMark s m.id = 0 := by simp [ftMark, hc.2]
          have hih := ih { s with announced_ft := m.id :: s.announced_ft }
          have hm1 : ftMark { s with announced_ft := m.id :: s.announced_ft } m.id
              = 1 := by simp [ftMark]
          have hsingle : ftFor [ftEvent m] m.id = [ftEvent m] := by
            simp [ftFor, ftEvent]
          simp only [processFT, hsa, if_true]
          rw [ftFor_append, hsingle, hm0]
          rw [hm1] at hih
          simp only [List.length_append, List.length_cons, List.length_nil]
          omega
        · have hmark : ftMark { s with announced_ft := m.id :: s.announced_ft } i
              = ftMark s i := by
            simp [ftMark, List.mem_cons, Ne.symm hi]
          have hskip : ftFor [ftEvent m] i = [] := by
            simp [ftFor, ftEvent, hi]
          have hih := ih { s with announced_ft := m.id :: s.announced_ft }
          rw [hmark] at hih
          simp only [processFT, hsa, if_true]
          rw [ftFor_append, hskip]
          simpa using hih
      · have hsa : should_announce_ft s m = (false, s) := by
          unfold should_announce_ft
          rw [if_neg hc]
        simp only [processFT, hsa]
        simpa using ih s

theorem processTick_ft_bound (s : ApiState) (B : List Match) (i : Int) :
    (ftFor (processTick s B).2 i).length + ftMark s i
      ≤ ftMark (processTick s B).1 i := by
  simp only [processTick]
  rw [ftFor_append, ftFor_processGoals]
  have hmark : ftMark (processGoals s B).1 i = ftMark s i := by
    simp [ftMark, processGoals_announced]
  have hb := processFT_ft_bound (processGoals s B).1 B i
  rw [hmark] at hb
  simpa using hb

theorem processTicks_ft_bound (s : ApiState) (bs : List (List Match)) (i : Int) :
    (ftFor (processTicks s bs).2 i).length + ftMark s i
      ≤ ftMark (processTicks s bs).1 i := by
  induction bs generalizing s with
  | nil => simp [processTicks, ftFor]
  | cons B rest ih =>
      simp only [processTicks]
      rw [ftFor_append]
      have h1 := processTick_ft_bound s B i
      have h2 := ih (processTick s B).1
      simp only [List.length_append]
      omega

/-- C10: the announced set only grows, so over the whole lifetime of the
engine — any sequence of batches from the initial state, however a match
disappears and reappears — at most one MatchEnded event is emitted per
match id. -/
theorem fulltime_at_most_once (bs : List (List Match)) (i : Int) :
    (ftFor (processTicks initState bs).2 i).length ≤ 1 := by
  have h := processTicks_ft_bound initState bs i
  have h0 : ftMark initState i = 0 := by simp [ftMark, initState]
  have h1 : ftMark (processTicks initState bs).1 i ≤ 1 := ftMark_le_one _ _
  omega

/-- C5 counterexample: for a batch that carries the same match id twice
with different scores, feeding the identical batch twice in a row emits
events on the second feed as well. -/
theorem idempotence_counterexample :
    (processTick
        (processTick initState
          [mkSnap 1 1 0 ("IN_PLAY"), mkSnap 1 2 0 ("IN_PLAY")]).1
        [mkSnap 1 1 0 ("IN_PLAY"), mkSnap 1 2 0 ("IN_PLAY")]).2 ≠ [] := by
  decide

theorem detect_goals_none (s : ApiState) (m : Match)
    (h : dictGet s.previous_scores m.id = none) :
    detect_goals s m = (false, { s with previous_scores := dictInsert s.previous_scores m.id (m.home_score, m.away_score) }) := by
  simp [detect_goals, h]

theorem detect_goals_diff (s : ApiState) (m : Match) (old : Nat × Nat)
    (h : dictGet s.previous_scores m.id = some old)
    (hne : (m.home_score, m.away_score) ≠ old) :
    detect_goals s m = (true, { s with previous_scores := dictInsert s.previous_scores m.id (m.home_score, m.away_score) }) := by
  simp [detect_goals, h, hne]

theorem detect_goals_same (s : ApiState) (m : Match)
    (h : dictGet s.previous_scores m.id = some (m.home_score, m.away_score)) :
    detect_goals s m = (false, s) := by
  simp [detect_goals, h]

theorem goalChainInv_refl (i : Int) (s : ApiState) : GoalChainInv i s s [] := by
  refine ⟨by simp, ?_, ?_, ?_⟩
  · intro p hp e he
    simp at he
  · intro e he
    simp at he
  · intro _ p hp
    exact hp

theorem goalChainInv_comp (i : Int) (s s1 s2 : ApiState) (g1 g2 : List Event)
    (h1 : GoalChainInv i s s1 g1) (h2 : GoalChainInv i s1 s2 g2) :
    GoalChainInv i s s2 (g1 ++ g2) := by
  obtain ⟨c1, hd1, lst1, emp1⟩ := h1
  obtain ⟨c2, hd2, lst2, emp2⟩ := h2
  refine ⟨?_, ?_, ?_, ?_⟩
  · apply c1.append c2
    intro x hx y hy
    have hbase := lst1 x hx
    have hne := hd2 _ hbase y hy
    exact fun he => hne he.symm
  · intro p hp e he
    cases g1 with
    | nil =>
        rw [List.nil_append] at he
        exact hd2 p (emp1 rfl p hp) e he
    | cons a t =>
        rw [List.cons_append] at he
        simp only [List.head?_cons, Option.mem_def, Option.some.injEq] at he
        subst he
        exact hd1 p hp a (by simp)
  · intro e he
    cases hg2 : g2 with
    | nil =>
        subst hg2
        rw [List.append_nil] at he
        have hb := lst1 e he
        exact emp2 rfl _ hb
    | cons b u =>
        subst hg2
        rw [List.getLast?_append,
            Option.or_of_isSome (List.getLast?_isSome.mpr (by simp))] at he
        exact lst2 e he
  · intro hnil p hp
    have h1n : g1 = [] := by
      cases g1
      · rfl
      · simp at hnil
    have h2n : g2 = [] := by
      cases g2
      · rfl
      · simp [h1n] at hnil
    exact emp2 h2n p (emp1 h1n p hp)

theorem goalChainInv_step (i : Int) (s : ApiState) (m : Match) :
    GoalChainInv i s (detect_goals s m).2
      (goalsFor (if (detect_goals s m).1 then [goalEvent m] else []) i) := by
  rcases hd : dictGet s.previous_scores m.id with _ | old
  · rw [detect_goals_none s m hd]
    show GoalChainInv i s
      ({ s with previous_scores :=
                  dictInsert s.previous_scores m.id (m.home_score, m.away_score) })
      (goalsFor [] i)
    refine ⟨by simp [goalsFor], ?_, ?_, ?_⟩
    · intro p hp e he
      simp [goalsFor] at he
    · intro e he
      simp [goalsFor] at he
    · intro _ p hp
      by_cases hmi : m.id = i
      · rw [hmi] at hd
        rw [hd] at hp
        simp at hp
      · exact (dictGet_insert_ne _ _ _ _ hmi).trans hp
  · by_cases hc : (m.home_score, m.away_score) = old
    · rw [detect_goals_same s m (by rw [hd, hc])]
      show GoalChainInv i s s (goalsFor [] i)
      refine ⟨by simp [goalsFor], ?_, ?_, ?_⟩
      · intro p hp e he
        simp [goalsFor] at he
      · intro e he
        simp [goalsFor] at he
      · intro _ p hp
        exact hp
    · rw [detect_goals_diff s m old hd hc]
      by_cases hmi : m.id = i
      · subst hmi
        show GoalChainInv m.id s
          ({ s with previous_scores :=
                      dictInsert s.previous_scores m.id (m.home_score, m.away_score) })
          (goalsFor [goalEvent m] m.id)
        have hg : goalsFor [goalEvent m] m.id = [goalEvent m] := by
          simp [goalsFor, goalEvent]
        rw [hg]
        refine ⟨by simp, ?_, ?_, ?_⟩
        · intro p hp e he
          rw [hd] at hp
          simp only [Option.some.injEq] at hp
          subst hp
          simp only [List.head?_cons, Option.mem_def, Option.some.injEq] at he
          subst he
          simpa [Event.score, goalEvent] using hc
        · intro e he
          simp only [List.getLast?_singleton, Option.mem_def, Option.some.injEq] at he
          subst he
          show dictGet (dictInsert s.previous_scores m.id
            (m.home_score, m.away_score)) m.id = some (Event.score (goalEvent m))
          rw [dictGet_insert_self]
          simp [Event.score, goalEvent]
        · intro hnil p hp
          simp at hnil
      · show GoalChainInv i s
          ({ s with previous_scores :=
                      dictInsert s.previous_scores m.id (m.home_score, m.away_score) })
          (goalsFor [goalEvent m] i)
        have hg : goalsFor [goalEvent m] i = [] := by
          simp [goalsFor, goalEvent, hmi]
        rw [hg]
        refine ⟨by simp, ?_, ?_, ?_⟩
        · intro p hp e he
          simp at he
        · intro e he
          simp at he
        · intro _ p hp
          exact (dictGet_insert_ne _ _ _ _ hmi).trans hp

theorem processGoals_chainInv (i : Int) (s : ApiState) (B : List Match) :
    GoalChainInv i s (processGoals s B).1 (goalsFor (processGoals s B).2 i) := by
  induction B generalizing s with
  | nil => exact goalChainInv_refl i s
  | cons m rest ih =>
      by_cases hst : m.status = "IN_PLAY"
      · simp only [processGoals, hst, if_pos]
        rw [goalsFor_append]
        exact goalChainInv_comp i s (detect_goals s m).2
          (processGoals (detect_goals s m).2 rest).1 _ _
          (goalChainInv_step i s m) (ih _)
      · simp only [processGoals, hst, if_neg, not_false_iff]
        exact ih s

theorem processFT_chainInv (i : Int) (s : ApiState) (B : List Match) :
    GoalChainInv i s (processFT s B).1 (goalsFor (processFT s B).2 i) := by
  rw [goalsFor_processFT]
  refine ⟨by simp, ?_, ?_, ?_⟩
  · intro p hp e he
    simp at he
  · intro e he
    simp at he
  · intro _ p hp
    rw [processFT_prev]
    exact hp

theorem processTick_chainInv (i : Int) (s : ApiState) (B : List Match) :
    GoalChainInv i s (processTick s B).1 (goalsFor (processTick s B).2 i) := by
  simp only [processTick]
  rw [goalsFor_append]
  exact goalChainInv_comp i s (processGoals s B).1
    (processFT (processGoals s B).1 B).1 _ _
    (processGoals_chainInv i s B) (processFT_chainInv i (processGoals s B).1 B)

theorem processTicks_chainInv (i : Int) (s : ApiState) (bs : List (List Match)) :
    GoalChainInv i s (processTicks s bs).1 (goalsFor (processTicks s bs).2 i) := by
  induction bs generalizing s with
  | nil => exact goalChainInv_refl i s
  | cons B rest ih =>
      simp only [processTicks]
      rw [goalsFor_append]
      exact goalChainInv_comp i s (processTick s B).1
        (processTicks (processTick s B).1 rest).1 _ _
        (processTick_chainInv i s B) (ih _)

theorem mem_goalsFor (l : List Event) (i : Int) (e : Event)
    (he : e ∈ goalsFor l i) :
    e.kind = EventKind.goalScored ∧ e.matchId = i := by
  induction l with
  | nil => simp [goalsFor] at he
  | cons a rest ih =>
      by_cases h : a.kind = EventKind.goalScored ∧ a.matchId = i
      · simp only [goalsFor, if_pos h] at he
        rcases List.mem_cons.mp he with he1 | he2
        · subst he1
          exact h
        · exact ih he2
      · simp only [goalsFor, if_neg h] at he
        exact ih he

theorem chain_fingerprint_of_score (i : Int) (l : List Event)
    (hall : ∀ e ∈ l, e.kind = EventKind.goalScored ∧ e.matchId = i)
    (h : List.Chain' (fun a b => Event.score a ≠ Event.score b) l) :
    List.Chain' (fun a b => Event.fingerprint a ≠ Event.fingerprint b) l := by
  induction l with
  | nil => simp
  | cons a t ih =>
      cases t with
      | nil => simp
      | cons b u =>
          rw [List.chain'_cons] at h ⊢
          obtain ⟨hab, ht⟩ := h
          refine ⟨?_, ih (fun e he => hall e (by simp [he])) ht⟩
          have ha := hall a (by simp)
          have hb := hall b (by simp)
          intro hfp
          apply hab
          simp only [Event.fingerprint, ha.1, hb.1] at hfp
          rw [Fingerprint.goal.injEq] at hfp
          simp [Event.score, hfp.2.1, hfp.2.2]

theorem pairwise_fp_of_length_le_one (l : List Event) (h : l.length ≤ 1) :
    List.Pairwise (fun a b => Event.fingerprint a ≠ Event.fingerprint b) l := by
  rcases l with _ | ⟨a, _ | ⟨b, t⟩⟩
  · simp
  · simp
  · simp at h

/-- C1 amended: over any run from the initial state, no two MatchEnded
events for the same match are emitted at all (so none share a
fingerprint), and any two consecutive GoalScored events for the same
match carry different fingerprints; the full pairwise guarantee fails
only for non-consecutive GoalScored events, which can repeat a
fingerprint when a score oscillates. -/
theorem at_most_once_amended (bs : List (List Match)) (i : Int) :
    List.Pairwise (fun a b => Event.fingerprint a ≠ Event.fingerprint b)
      (ftFor (processTicks initState bs).2 i) ∧
    List.Chain' (fun a b => Event.fingerprint a ≠ Event.fingerprint b)
      (goalsFor (processTicks initState bs).2 i) := by
  constructor
  · have h := processTicks_ft_bound initState bs i
    have h0 : ftMark initState i = 0 := by simp [ftMark, initState]
    have h1 : ftMark (processTicks initState bs).1 i ≤ 1 := ftMark_le_one _ _
    exact pairwise_fp_of_length_le_one _ (by omega)
  · have hinv := processTicks_chainInv i initState bs
    exact chain_fingerprint_of_score i _
      (fun e he => mem_goalsFor _ _ _ he) hinv.1

end Football
